import Mathlib

/-!
# Verification of the webAccessConnector library (webAccessConnector-1.1.js)

Shallow embedding of the connector's core: the JS value model it manipulates,
the static URL query parser `parseQueryUrl`, the query response processor,
the save-payload builders, the `webAccessRequest` login-on-demand orchestrator
and the metadata attribute traversal `getAttributesForObject`.

Conventions of the embedding:
* JS numbers are modelled as exact rationals (`JSNum`, a numerator/denominator
  pair kept in lowest terms), plus explicit `nan` and signed-infinity values;
  IEEE-754 rounding is not modelled (none of the verified properties depends
  on it).
* JS `undefined` is modelled with `Option` (`none` = undefined) where a value
  may be absent, and with the `JSVal.undef` constructor where a JS value is
  stored.
* Asynchronous transport exchanges are modelled by an oracle: a list of
  transport results consumed in order, one per `ajax.call` the code performs.
  An exhausted oracle models an exchange that never completes (the source has
  no timeouts, a hung exchange simply never calls back).
-/

/-- An exact rational, kept in lowest terms with a positive denominator by
constructing values only through `JSNum.norm`.  (The Lean library `Rat` is not
used because its arithmetic is irreducible and would block evaluation of the
embedding on concrete inputs.) -/
structure JSNum where
  num : Int
  den : Nat
  deriving DecidableEq, Repr

/-- Structurally recursive Euclid (fuel-based so that it evaluates by
reduction; `m` steps always suffice since the first argument strictly
decreases). -/
def gcdF : Nat → Nat → Nat → Nat
  | 0, _, n => n
  | _ + 1, 0, n => n
  | f + 1, m + 1, n => gcdF f (n % (m + 1)) (m + 1)

/-- `JSNum.norm n d` is the fraction `n / d` in lowest terms (`d ≠ 0`
expected). -/
def JSNum.norm (n : Int) (d : Nat) : JSNum :=
  let g := gcdF (n.natAbs + 1) n.natAbs d
  if g = 0 then ⟨0, 1⟩ else ⟨n / (g : Int), d / g⟩

/-- Embed a natural number. -/
def JSNum.ofNat (n : Nat) : JSNum := ⟨n, 1⟩

instance : OfNat JSNum n := ⟨JSNum.ofNat n⟩

/-- Numeric equality of a `JSNum` with an integer (cross multiplication, so it
does not rely on normalization). -/
def JSNum.eqInt (q : JSNum) (t : Int) : Bool := q.num = t * q.den

/-- A JavaScript value as stored by the connector: strings, (finite) numbers,
`NaN`, signed `Infinity`, booleans, `null` and `undefined`. -/
inductive JSVal where
  | str (s : String)
  | num (q : JSNum)
  | nan
  | inf (neg : Bool)
  | bool (b : Bool)
  | null
  | undef
  deriving DecidableEq, Repr

/-- JS truthiness of a property-lookup result (`none` = property absent,
i.e. `undefined`). -/
def jsTruthy : Option JSVal → Bool
  | none => false
  | some (.str s) => s ≠ ""
  | some (.num q) => q.num ≠ 0
  | some .nan => false
  | some (.inf _) => true
  | some (.bool b) => b
  | some .null => false
  | some .undef => false

/-! ## JS objects as insertion-ordered key/value lists

JS string-keyed property assignment: overwrite in place when the key exists,
append otherwise.  Objects built exclusively through `objInsert` have
pairwise-distinct keys. -/

/-- Property assignment `obj[k] = v`. -/
def objInsert : List (String × JSVal) → String → JSVal → List (String × JSVal)
  | [], k, v => [(k, v)]
  | (k', v') :: rest, k, v =>
    if k' = k then (k, v) :: rest else (k', v') :: objInsert rest k v

/-- Property lookup `obj[k]` (`none` = `undefined`). -/
def jsGetObj (obj : List (String × JSVal)) (k : String) : Option JSVal :=
  (obj.find? (fun p => p.1 = k)).map (·.2)

/-! ## String.prototype.split with a one-character separator

JS `s.split(sep)` never returns an empty array: `"".split("&") = [""]`. -/

/-- `splitChar c l` splits `l` at every occurrence of `c`; the separators are
dropped and the (possibly empty) fragments returned in order.  The result is
always non-empty. -/
def splitChar (c : Char) : List Char → List (List Char)
  | [] => [[]]
  | a :: rest =>
    match splitChar c rest with
    | [] => [[]]
    | g :: gs => if a = c then [] :: g :: gs else (a :: g) :: gs

/-- JS `s.split(c)` for a one-character separator. -/
def jsSplit (c : Char) (s : String) : List String :=
  (splitChar c s.data).map String.mk

/-! ## decodeURIComponent

`decodeURIComponent` percent-decodes every `%XX` pair into a byte and decodes
the resulting byte string as UTF-8; a malformed escape or invalid UTF-8 raises
`URIError` (modelled by `none`).  Lone UTF-16 surrogates cannot occur in the
Lean `String` type and are outside the model. -/

/-- Value of one hex digit. -/
def hexVal (c : Char) : Option Nat :=
  if '0' ≤ c ∧ c ≤ '9' then some (c.toNat - '0'.toNat)
  else if 'a' ≤ c ∧ c ≤ 'f' then some (c.toNat - 'a'.toNat + 10)
  else if 'A' ≤ c ∧ c ≤ 'F' then some (c.toNat - 'A'.toNat + 10)
  else none

/-- UTF-8 encoding of a unicode scalar value, as a byte (`Nat`) list. -/
def utf8Encode (n : Nat) : List Nat :=
  if n < 0x80 then [n]
  else if n < 0x800 then [0xC0 + n / 64, 0x80 + n % 64]
  else if n < 0x10000 then
    [0xE0 + n / 4096, 0x80 + n / 64 % 64, 0x80 + n % 64]
  else
    [0xF0 + n / 262144, 0x80 + n / 4096 % 64, 0x80 + n / 64 % 64, 0x80 + n % 64]

/-- Is `b` a UTF-8 continuation byte? -/
def isCont (b : Nat) : Bool := 0x80 ≤ b ∧ b < 0xC0

/-- Strict UTF-8 decoding of a byte list (rejecting overlong forms, surrogate
code points and out-of-range values, as `decodeURIComponent` does). -/
def utf8Decode : List Nat → Option (List Char)
  | [] => some []
  | b :: rest =>
    if b < 0x80 then
      (utf8Decode rest).map (fun cs => Char.ofNat b :: cs)
    else if 0xC2 ≤ b ∧ b ≤ 0xDF then
      match rest with
      | b2 :: r2 =>
        if isCont b2 then
          (utf8Decode r2).map (fun cs => Char.ofNat ((b - 0xC0) * 64 + (b2 - 0x80)) :: cs)
        else none
      | _ => none
    else if 0xE0 ≤ b ∧ b ≤ 0xEF then
      match rest with
      | b2 :: b3 :: r3 =>
        if isCont b2 ∧ isCont b3 then
          let cp := (b - 0xE0) * 4096 + (b2 - 0x80) * 64 + (b3 - 0x80)
          if 0x800 ≤ cp ∧ ¬(0xD800 ≤ cp ∧ cp ≤ 0xDFFF) then
            (utf8Decode r3).map (fun cs => Char.ofNat cp :: cs)
          else none
        else none
      | _ => none
    else if 0xF0 ≤ b ∧ b ≤ 0xF4 then
      match rest with
      | b2 :: b3 :: b4 :: r4 =>
        if isCont b2 ∧ isCont b3 ∧ isCont b4 then
          let cp := (b - 0xF0) * 262144 + (b2 - 0x80) * 4096 + (b3 - 0x80) * 64 + (b4 - 0x80)
          if 0x10000 ≤ cp ∧ cp ≤ 0x10FFFF then
            (utf8Decode r4).map (fun cs => Char.ofNat cp :: cs)
          else none
        else none
      | _ => none
    else none

/-- Percent-unescaping pass: turn the character list into a byte list,
replacing each `%XX` by its byte; a malformed escape fails. -/
def pctBytes : List Char → Option (List Nat)
  | [] => some []
  | '%' :: cs =>
    match cs with
    | h1 :: h2 :: rest => do
      let a ← hexVal h1
      let b ← hexVal h2
      let t ← pctBytes rest
      pure ((16 * a + b) :: t)
    | _ => none
  | c :: cs => (pctBytes cs).map (fun t => utf8Encode c.toNat ++ t)

/-- JS `decodeURIComponent` (`none` models a thrown `URIError`). -/
def jsDecodeURIComponent (s : String) : Option String := do
  let bytes ← pctBytes s.data
  let cs ← utf8Decode bytes
  pure (String.mk cs)

/-! ## JS number conversions

`Number(string)` (the conversion behind `isNaN(string)`) and
`parseFloat(string)`, modelled with exact rationals. -/

/-- A JS number that is not `NaN`: a finite value or a signed infinity. -/
inductive JNum where
  | fin (q : JSNum)
  | inf (neg : Bool)
  deriving DecidableEq, Repr

/-- JS whitespace as accepted by `Number`/`parseFloat` (the common members of
the `StrWhiteSpace` set). -/
def isJSWS (c : Char) : Bool :=
  c = ' ' ∨ c = '\t' ∨ c = '\n' ∨ c = '\r' ∨ c = Char.ofNat 11 ∨
    c = Char.ofNat 12 ∨ c = Char.ofNat 0xA0 ∨ c = Char.ofNat 0xFEFF

/-- Decimal digit run to a natural number. -/
def digitsToNat (ds : List Char) : Nat :=
  ds.foldl (fun a c => a * 10 + (c.toNat - '0'.toNat)) 0

/-- The rational denoted by integer digits `ip` and fraction digits `fp`. -/
def mkDec (ip fp : List Char) : JSNum :=
  JSNum.norm (digitsToNat ip * 10 ^ fp.length + digitsToNat fp) (10 ^ fp.length)

/-- `m × 10^e` for an integer exponent. -/
def applyExp (m : JSNum) (e : Int) : JSNum :=
  if 0 ≤ e then JSNum.norm (m.num * (10 ^ e.toNat : Nat)) m.den
  else JSNum.norm m.num (m.den * 10 ^ (-e).toNat)

/-- Parse a maximal unsigned decimal mantissa (`digits`, `digits.digits` or
`.digits`) from the front of `l`; `none` when no digit is consumed. -/
def parseDecCore (l : List Char) : Option (JSNum × List Char) :=
  let ip := l.takeWhile Char.isDigit
  let r1 := l.dropWhile Char.isDigit
  match r1 with
  | '.' :: t =>
    let fp := t.takeWhile Char.isDigit
    let r2 := t.dropWhile Char.isDigit
    if ip.isEmpty ∧ fp.isEmpty then none else some (mkDec ip fp, r2)
  | _ => if ip.isEmpty then none else some (mkDec ip [], r1)

/-- Digit run in base `b` (hex/octal/binary literals); `none` when empty or
containing an invalid digit. -/
def radixToNat (b : Nat) : List Char → Option Nat
  | [] => none
  | ds =>
    if ds.all (fun c => ((hexVal c).map (fun v => decide (v < b))).getD false) then
      some (ds.foldl (fun a c => a * b + (hexVal c).getD 0) 0)
    else none

/-- Signless decimal body of `Number(string)`: the whole list must be consumed
(mantissa plus optional well-formed exponent). -/
def decWhole (l : List Char) : Option JSNum :=
  match parseDecCore l with
  | none => none
  | some (m, r) =>
    match r with
    | [] => some m
    | c :: t =>
      if c = 'e' ∨ c = 'E' then
        let (es, t2) : Bool × List Char :=
          match t with
          | '+' :: u => (false, u)
          | '-' :: u => (true, u)
          | _ => (false, t)
        let ds := t2.takeWhile Char.isDigit
        if ds.isEmpty ∨ ¬(t2.dropWhile Char.isDigit).isEmpty then none
        else some (applyExp m (if es then -(digitsToNat ds : Int) else (digitsToNat ds : Int)))
      else none

/-- JS `Number(string)`; `none` models `NaN`.  The empty (or all-whitespace)
string converts to `0`; radix-prefixed literals take no sign. -/
def jsStringToNumber (s : String) : Option JNum :=
  let t := (s.data.dropWhile isJSWS).reverse.dropWhile isJSWS |>.reverse
  match t with
  | [] => some (.fin 0)
  | '0' :: 'x' :: ds => (radixToNat 16 ds).map (fun n => .fin (.ofNat n))
  | '0' :: 'X' :: ds => (radixToNat 16 ds).map (fun n => .fin (.ofNat n))
  | '0' :: 'o' :: ds => (radixToNat 8 ds).map (fun n => .fin (.ofNat n))
  | '0' :: 'O' :: ds => (radixToNat 8 ds).map (fun n => .fin (.ofNat n))
  | '0' :: 'b' :: ds => (radixToNat 2 ds).map (fun n => .fin (.ofNat n))
  | '0' :: 'B' :: ds => (radixToNat 2 ds).map (fun n => .fin (.ofNat n))
  | _ =>
    let (neg, b) : Bool × List Char :=
      match t with
      | '+' :: u => (false, u)
      | '-' :: u => (true, u)
      | _ => (false, t)
    if b = "Infinity".data then some (.inf neg)
    else (decWhole b).map (fun q => .fin (if neg then ⟨-q.num, q.den⟩ else q))

/-- JS `isNaN(string)` (`isNaN` coerces with `Number` first). -/
def jsIsNaN (s : String) : Bool := (jsStringToNumber s).isNone

/-- JS `parseFloat(string)`: maximal numeric prefix after leading whitespace;
`NaN` when no digits (and no `Infinity`) are found. -/
def jsParseFloat (s : String) : JSVal :=
  let t := s.data.dropWhile isJSWS
  let (neg, b) : Bool × List Char :=
    match t with
    | '+' :: u => (true, u)
    | '-' :: u => (true, u)
    | _ => (false, t)
  let negSign : Bool := match t with | '-' :: _ => true | _ => false
  if b.take 8 = "Infinity".data then .inf negSign
  else
    match parseDecCore b with
    | none => .nan
    | some (m, r) =>
      let e : Int :=
        match r with
        | [] => 0
        | c :: t2 =>
          if c = 'e' ∨ c = 'E' then
            let (es, t3) : Bool × List Char :=
              match t2 with
              | '+' :: u => (false, u)
              | '-' :: u => (true, u)
              | _ => (false, t2)
            let ds := t3.takeWhile Char.isDigit
            if ds.isEmpty then 0
            else if es then -(digitsToNat ds : Int) else (digitsToNat ds : Int)
          else 0
      let _ := neg
      let v := applyExp m e
      .num (if negSign then ⟨-v.num, v.den⟩ else v)

/-- JS loose equality `v == q` between a stored value and a number literal
(as in `responseData.pageCount == 1` and `statusCode == 403`): strings and
booleans are coerced with `Number`; `null`, `undefined` and `NaN` compare
unequal to every number. -/
def jsLooseEqNum (v : JSVal) (target : Int) : Bool :=
  match v with
  | .num q => q.eqInt target
  | .nan => false
  | .inf _ => false
  | .str s =>
    match jsStringToNumber s with
    | some (.fin q) => q.eqInt target
    | _ => false
  | .bool b => (if b then (1 : Int) else 0) = target
  | .null => false
  | .undef => false

/-! ## parseQueryUrl (static, source lines 585-657)

`webAccessConnector.parseQueryUrl` turns a query URL back into structured
query design data.  `PQResult.thrown` models a `URIError` escaping from
`decodeURIComponent`; `PQResult.undef` models the bare `return` (the caller
receives `undefined`). -/

/-- The value `parseQueryUrl` returns on success. -/
structure ParseQueryResult where
  webAccessUrl : Option String
  queryData : List (String × JSVal)
  deriving DecidableEq, Repr

/-- Outcome of a `parseQueryUrl` call. -/
inductive PQResult where
  | thrown
  | undef
  | ok (r : ParseQueryResult)
  deriving DecidableEq, Repr

/-- One iteration of the parameter loop: `pair = pairs[i].split("=")`,
`name = decodeURIComponent(pair[0])`,
`value = isNaN(pair[1]) ? decodeURIComponent(pair[1]) : parseFloat(pair[1])`.
When the pair has no `=`, `pair[1]` is `undefined`: `isNaN(undefined)` is
`true` and `decodeURIComponent(undefined)` is the string `"undefined"`. -/
def parsePair (p : String) : Option (String × JSVal) := do
  let flds := jsSplit '=' p
  let name ← jsDecodeURIComponent (flds.headD "")
  let value ←
    match flds[1]? with
    | none => some (JSVal.str "undefined")
    | some v =>
      if jsIsNaN v then (jsDecodeURIComponent v).map JSVal.str
      else some (jsParseFloat v)
  pure (name, value)

/-- The `for (var i in pairs)` loop building `obj`. -/
def buildObj (pairs : List String) : Option (List (String × JSVal)) :=
  pairs.foldlM (fun obj p => (parsePair p).map (fun nv => objInsert obj nv.1 nv.2)) []

/-- The `while (true)` loop collecting the contiguous `c0, c1, …` run.  The JS
loop breaks at the first missing index; `obj` has pairwise-distinct keys, so
the break happens after at most `obj.length` iterations and the fuel
`obj.length + 1` supplied by `parseQueryUrl` never truncates it. -/
def collectCs (obj : List (String × JSVal)) :
    List (String × JSVal) → Nat → Nat → List (String × JSVal)
  | qd, _, 0 => qd
  | qd, i, fuel + 1 =>
    let cn := "c" ++ toString i
    if jsTruthy (jsGetObj obj cn) then
      collectCs obj (objInsert qd cn ((jsGetObj obj cn).getD .undef)) (i + 1) fuel
    else qd

/-- `webAccessConnector.parseQueryUrl` (source lines 585-657). -/
def parseQueryUrl (queryString : String) : PQResult :=
  let pairs := jsSplit '&' queryString
  if pairs.length = 0 then .undef
  else
    let p0 := pairs.headD ""
    let qMarkPos := p0.data.findIdx? (fun c => c == '?')
    let webUrl : Option String :=
      match qMarkPos with
      | none => none
      | some _ =>
        if (queryString.data.take 4).map Char.toLower = "http".data then
          some (String.intercalate "/" ((jsSplit '/' p0).take 4))
        else if queryString.data.take 1 = ['/'] then
          match (queryString.data.drop 1).findIdx? (fun c => c == '/') with
          | some j => some (String.mk (queryString.data.take (j + 1)))
          | none => some ""
        else none
    let p0s :=
      match qMarkPos with
      | some q => String.mk (p0.data.drop (q + 1))
      | none => p0
    match buildObj (p0s :: pairs.tail) with
    | none => .thrown
    | some obj =>
      if ¬ jsTruthy (jsGetObj obj "class_name") then .undef
      else
        let qd := objInsert [] "class_name" ((jsGetObj obj "class_name").getD .undef)
        let qd :=
          if jsTruthy (jsGetObj obj "query") ∧ ¬ jsTruthy (jsGetObj obj "attributes") then
            objInsert qd "query" ((jsGetObj obj "query").getD .undef)
          else qd
        let qd :=
          if jsTruthy (jsGetObj obj "attributes") then
            objInsert qd "attributes" ((jsGetObj obj "attributes").getD .undef)
          else qd
        let qd :=
          if jsTruthy (jsGetObj obj "page_size") then
            objInsert qd "page_size" ((jsGetObj obj "page_size").getD .undef)
          else qd
        let qd :=
          if jsTruthy (jsGetObj obj "sort_by") then
            objInsert qd "sort_by" ((jsGetObj obj "sort_by").getD .undef)
          else qd
        let qd :=
          if jsTruthy (jsGetObj obj "cns") then
            collectCs obj (objInsert qd "cns" ((jsGetObj obj "cns").getD .undef)) 0
              (obj.length + 1)
          else qd
        .ok ⟨webUrl, qd⟩


/-! ## query._queryResponseProcessor (source lines 87-92)

Fixes the `objectCount` that the service always reports as `0` when
`pageCount` is `1`.  `pageCount` is documented as `string|number`; the JS
comparison is the loose `==`, mirrored by `jsLooseEqNum`. -/

/-- A parsed query response body: the fields the processor touches plus the
remaining fields (`rest`), carried to state the frame property. -/
structure QueryResponseData where
  pageCount : JSVal
  objectCount : JSVal
  objects : List JSVal
  rest : List (String × JSVal)
  deriving DecidableEq, Repr

/-- `query._queryResponseProcessor` (the mutation of `responseData` modelled
functionally). -/
def queryResponseProcessor (responseData : QueryResponseData) : QueryResponseData :=
  if jsLooseEqNum responseData.pageCount 1 then
    { responseData with objectCount := .num (.ofNat responseData.objects.length) }
  else responseData

/-! ## record._prepareSaveData and the payload builders (source lines 107-135,
174-178, 215-223, 262-286)

To state the frame property "the caller's `attributeValues` object is never
mutated" the JS heap is made explicit: a store of objects addressed by `Nat`
references.  `JSON.parse(JSON.stringify(x))` on the flat scalar mapping
`attributeValues` drops `undefined`-valued properties and turns `NaN` and the
infinities into `null`; other scalars survive unchanged. -/

/-- Heap of JS objects; a reference is an index into `objs`. -/
structure Store where
  objs : List (List (String × JSVal))
  deriving DecidableEq, Repr

/-- Allocate a fresh object, returning its reference. -/
def Store.alloc (σ : Store) (o : List (String × JSVal)) : Store × Nat :=
  (⟨σ.objs ++ [o]⟩, σ.objs.length)

/-- Dereference (`[]` for a dangling reference, which never arises here). -/
def Store.get (σ : Store) (r : Nat) : List (String × JSVal) :=
  (σ.objs[r]?).getD []

/-- Property assignment `ref[k] = v`. -/
def Store.setProp (σ : Store) (r : Nat) (k : String) (v : JSVal) : Store :=
  ⟨σ.objs.set r (objInsert (σ.get r) k v)⟩

/-- What one property value becomes under `JSON.parse(JSON.stringify(·))`
(`none`: the property is dropped). -/
def jsonRoundTripVal : JSVal → Option JSVal
  | .str s => some (.str s)
  | .num q => some (.num q)
  | .nan => some .null
  | .inf _ => some .null
  | .bool b => some (.bool b)
  | .null => some .null
  | .undef => none

/-- `JSON.parse(JSON.stringify(obj))` for a flat scalar mapping. -/
def jsonRoundTripObj (o : List (String × JSVal)) : List (String × JSVal) :=
  o.filterMap (fun kv => (jsonRoundTripVal kv.2).map (fun v => (kv.1, v)))

/-- Truthiness of an optional string parameter (`undefined` and `""` are
falsy). -/
def jsTruthyStr : Option String → Bool
  | none => false
  | some s => s ≠ ""

/-- `record._prepareSaveData(className, isNew, attributeValues)`:
`var createData = {}` (always allocated), replaced by a JSON deep copy of
`attributeValues` when that parameter is truthy; then `class_name` and
`is_new` are set on the copy.  Returns the new store and the reference to
`createData`. -/
def prepareSaveData (σ : Store) (className : String) (isNew : Bool)
    (attributeValues : Option Nat) : Store × Nat :=
  let (σ1, r0) := σ.alloc []
  let (σ2, r) :=
    match attributeValues with
    | some av => σ1.alloc (jsonRoundTripObj (σ1.get av))
    | none => (σ1, r0)
  let σ3 := (σ2.setProp r "class_name" (.str className)).setProp r "is_new" (.bool isNew)
  (σ3, r)

/-- `record.createRecord`: payload construction (the subsequent `_save`
dispatch performs no further heap writes). -/
def createRecord (σ : Store) (className : String) (attributeValues : Option Nat) :
    Store × Nat :=
  prepareSaveData σ className true attributeValues

/-- `record.createProcessRecord`: payload construction. -/
def createProcessRecord (σ : Store) (className : String)
    (lifecycleName templateName : Option String) (attributeValues : Option Nat) :
    Store × Nat :=
  let (σ1, r) := prepareSaveData σ className true attributeValues
  let σ2 :=
    if jsTruthyStr lifecycleName then
      σ1.setProp r "lifecycle_name" (.str (lifecycleName.getD ""))
    else σ1
  let σ3 :=
    if jsTruthyStr templateName then
      σ2.setProp r "object_template_name" (.str (templateName.getD ""))
    else σ2
  (σ3, r)

/-- `record.updateRecord`: payload construction. -/
def updateRecord (σ : Store) (className key : String) (attributeValues : Option Nat) :
    Store × Nat :=
  let (σ1, r) := prepareSaveData σ className false attributeValues
  (σ1.setProp r "key" (.str key), r)

/-- `action.collectionAction`: payload construction. -/
def collectionAction (σ : Store) (processClassName processKey actionName : String)
    (collectionClassName : String) (attributeValues : Option Nat) : Store × Nat :=
  let (σ1, r) := prepareSaveData σ collectionClassName true attributeValues
  let σ2 := ((σ1.setProp r "parent_class_name" (.str processClassName)).setProp r
      "parent_key" (.str processKey)).setProp r "parent_function_name" (.str actionName)
  (σ2, r)

/-- `action.updateAction`: payload construction. -/
def updateAction (σ : Store) (className key actionName : String)
    (attributeValues : Option Nat) : Store × Nat :=
  let (σ1, r) := prepareSaveData σ className false attributeValues
  ((σ1.setProp r "key" (.str key)).setProp r "function_name" (.str actionName), r)

/-! ## webAccessRequest: the login-on-demand orchestrator (source lines 667-811)

The closures of `webAccessConnector.webAccessRequest` are modelled as an
explicit state machine.  A `CallSite` names the `ajax.call` the request is
blocked on (the descriptor's own call in `go`, the login call in `logOn`, the
logout call in `logOff`, with the `onDemand` flag choosing the continuation
exactly as the source does).  The pure transition functions `mOnLoad`,
`mOnError`, `mLoginOnDemandOnLoad` and `mLogOffDone` are the closures
`m_onLoad`, `m_onError`, `m_loginOnDemandOnLoad` and `m_logOffDone`; the
pre-call mutations of `this.logOn` / `this.logOff` are `logOnT` / `logOffT`.
`run` consumes one oracle entry per transport call and returns the list of
calls performed and the list of deliveries made to the caller's
`onLoad`/`onError` continuations (assumed supplied). -/

/-- The connector construction parameters used by the orchestrator
(`connectionInfo` in the source; `loginPass` named as in the source). -/
structure ConnectionInfo where
  webAccessUrl : String
  loginOnDemand : Bool
  loginUser : String
  loginPass : String
  loginOnDemandAutoLogOff : Bool
  deriving DecidableEq, Repr

/-- A parsed JSON response body as far as the orchestrator inspects it:
`m_loginOnDemandOnLoad` reads `result` and `message`; `tag` stands for the
rest of the payload so distinct bodies stay distinct. -/
structure JSResponseData where
  result : Option Bool
  message : String
  tag : Nat
  deriving DecidableEq, Repr

/-- The request descriptor handed to `webAccessConnector.webAccessRequest`
(the fields that influence the orchestration; `commandPath`, `requestData` and
`requireJSON` are carried but only shape the transport call). -/
structure RequestParams where
  connectionInfo : ConnectionInfo
  commandPath : String
  requestData : List (String × JSVal)
  responseProcessor : Option (JSResponseData → JSResponseData)
  requireJSON : Bool

/-- `m_result` as a JS object: the success capture is
`{data, statusCode}`, the failure capture `{statusCode, errorText}`;
`loggedOn`/`loggedOff` are `none` until (and unless) `m_returnLoad` stamps
them.  (The opaque `response` field of the source object is omitted; its
`status` is `statusCode`.) -/
structure OutcomeObj where
  data : Option JSResponseData
  statusCode : Nat
  errorText : Option String
  loggedOn : Option Bool
  loggedOff : Option Bool
  deriving DecidableEq, Repr

/-- Which of the three `ajax.call` sites a transport exchange belongs to. -/
inductive CallKind where
  | main
  | login
  | logoff
  deriving DecidableEq, Repr

/-- Which caller continuation a delivery goes to. -/
inductive Channel where
  | load
  | err
  deriving DecidableEq, Repr

/-- One invocation of the caller's `onLoad`/`onError`; `m_returnError` passes
`m_result` which is `null` (`none`) if no capture happened. -/
structure Delivery where
  channel : Channel
  outcome : Option OutcomeObj
  deriving DecidableEq, Repr

/-- Result of one transport exchange, as reported by
`webAccessConnector.ajax.call`: a parsed body with an HTTP status, or a
status/text failure. -/
inductive TransportResult where
  | load (d : JSResponseData) (status : Nat)
  | err (statusCode : Nat) (errorText : String)
  deriving DecidableEq, Repr

/-- The mutable closure state of one `webAccessRequest`
(`m_loginAttempted`, `m_autoLogOff`, `m_loggedOn`, `m_loggedOff`, `m_result`,
`m_resultIsSuccess`). -/
structure ReqState where
  loginAttempted : Bool
  autoLogOff : Bool
  loggedOn : Bool
  loggedOff : Bool
  result : Option OutcomeObj
  resultIsSuccess : Bool
  deriving DecidableEq, Repr

/-- The state at construction of a `webAccessRequest`. -/
def initState : ReqState := ⟨false, false, false, false, none, false⟩

/-- The pending transport call: the original descriptor's call (`go`), the
login call or the logout call, with the `onDemand` continuation flag. -/
inductive CallSite where
  | main
  | login (onDemand : Bool)
  | logoff (onDemand : Bool)
  deriving DecidableEq, Repr

/-- Forget the `onDemand` flag. -/
def CallSite.kind : CallSite → CallKind
  | .main => .main
  | .login _ => .login
  | .logoff _ => .logoff

/-- What a transition does next: block on another transport call, or finish
with the given deliveries. -/
inductive Next where
  | call (site : CallSite) (st : ReqState)
  | done (ds : List Delivery)
  deriving Repr

/-- Apply the configured `responseProcessor` (mutation of `responseData`
modelled functionally). -/
def applyRP (ps : RequestParams) (d : JSResponseData) : JSResponseData :=
  match ps.responseProcessor with
  | some f => f d
  | none => d

/-- `m_returnLoad`: stamp `loggedOn`/`loggedOff` onto `m_result` and invoke
`onLoad`.  (With `m_result` still `null` the JS would throw on the property
write; that state is unreachable from the entry points, and the model
delivers nothing.) -/
def returnLoadDeliv (st : ReqState) : List Delivery :=
  match st.result with
  | some r =>
    [⟨.load, some { r with loggedOn := some st.loggedOn, loggedOff := some st.loggedOff }⟩]
  | none => []

/-- `m_returnError`: invoke `onError` with `m_result` exactly as captured. -/
def returnErrorDeliv (st : ReqState) : List Delivery :=
  [⟨.err, st.result⟩]

/-- The pre-call mutations of `this.logOn`: `m_loginAttempted = true` and
`m_loggedOn = true` are set before the login transport call is issued. -/
def logOnT (st : ReqState) : ReqState :=
  { st with loginAttempted := true, loggedOn := true }

/-- The pre-call mutation of `this.logOff`: `m_loggedOff = true`. -/
def logOffT (st : ReqState) : ReqState :=
  { st with loggedOff := true }

/-- The assignment `m_result = (data, response, statusCode); m_resultIsSuccess
= true` at the top of `m_onLoad`. -/
def captureLoad (ps : RequestParams) (st : ReqState) (d : JSResponseData) (s : Nat) : ReqState :=
  { st with
    result := some ⟨some (applyRP ps d), s, none, none, none⟩,
    resultIsSuccess := true }

/-- The assignment `m_result = (statusCode, errorText)` in `m_onError`
(`m_resultIsSuccess` is not touched). -/
def captureError (st : ReqState) (c : Nat) (t1 : String) : ReqState :=
  { st with result := some ⟨none, c, some t1, none, none⟩ }

/-- `m_onLoad(responseData, response)`: run the response processor, capture
the success outcome, then either auto-log-off or deliver.  (The capture does
not change `m_autoLogOff`, so the guard tests `st` directly.) -/
def mOnLoad (ps : RequestParams) (st : ReqState) (d : JSResponseData) (s : Nat) : Next :=
  if st.autoLogOff then .call (.logoff true) (logOffT (captureLoad ps st d s))
  else .done (returnLoadDeliv (captureLoad ps st d s))

/-- `m_onError(statusCode, errorText)`: on a first 403 with `loginOnDemand`
configured, log on; otherwise (rewriting the text to `"Not Logged In"` on a
first 403 without `loginOnDemand`) capture the failure outcome, then either
auto-log-off or deliver. -/
def mOnError (ps : RequestParams) (st : ReqState) (c : Nat) (t : String) : Next :=
  if c = 403 ∧ st.loginAttempted = false ∧ ps.connectionInfo.loginOnDemand then
    .call (.login true) (logOnT st)
  else if st.autoLogOff then
    .call (.logoff true)
      (logOffT (captureError st c
        (if c = 403 ∧ st.loginAttempted = false then "Not Logged In" else t)))
  else
    .done (returnErrorDeliv (captureError st c
      (if c = 403 ∧ st.loginAttempted = false then "Not Logged In" else t)))

/-- `m_loginOnDemandOnLoad(responseData, response)`: a body with
`result == false` is a rejected login, surfaced through `m_onError(403,
message)`; otherwise arm auto-log-off if configured and replay `go()`. -/
def mLoginOnDemandOnLoad (ps : RequestParams) (st : ReqState) (d : JSResponseData) : Next :=
  if d.result = some false then mOnError ps st 403 d.message
  else
    .call .main
      (if ps.connectionInfo.loginOnDemandAutoLogOff then { st with autoLogOff := true } else st)

/-- `m_logOffDone()`: deliver the previously captured outcome, ignoring the
logout's own result. -/
def mLogOffDone (st : ReqState) : Next :=
  if st.resultIsSuccess then .done (returnLoadDeliv st) else .done (returnErrorDeliv st)

/-- Dispatch a transport result to the continuation the source wires to the
corresponding `ajax.call` site. -/
def afterEvent (ps : RequestParams) : CallSite → ReqState → TransportResult → Next
  | .main, st, .load d s => mOnLoad ps st d s
  | .main, st, .err c t => mOnError ps st c t
  | .login od, st, .load d s => if od then mLoginOnDemandOnLoad ps st d else mOnLoad ps st d s
  | .login _, st, .err c t => mOnError ps st c t
  | .logoff od, st, .load d s => if od then mLogOffDone st else mOnLoad ps st d s
  | .logoff od, st, .err c t => if od then mLogOffDone st else mOnError ps st c t

/-- Execute a `webAccessRequest` from the given call site, consuming one
oracle entry per transport exchange.  Returns the calls performed (in order)
and the deliveries made.  `run ps .main initState oracle` is `request.go()`
on a fresh request. -/
def run (ps : RequestParams) : CallSite → ReqState → List TransportResult →
    List CallKind × List Delivery
  | site, _, [] => ([site.kind], [])
  | site, st, ev :: rest =>
    match afterEvent ps site st ev with
    | .done ds => ([site.kind], ds)
    | .call site2 st2 =>
      let (cs, ds) := run ps site2 st2 rest
      (site.kind :: cs, ds)

/-! ## metadata.getAttributesForObject (source lines 439-500)

The traversal issues one `runQuery` per hierarchy level; each level's response
is either a successful list of attribute-type rows or a failure surfaced to
`parameters.onError`.  The oracle supplies one `QResult` per issued query.
The run records the queried guids, every processed row (for stating the
first-occurrence property) and the deliveries to the caller. -/

/-- One element of `result.data.objects` in a query response: `item.value`,
`item.name` and the requested `item.attributes` mapping (string values as Web
Access returns them; a missing key is JS `undefined`). -/
structure QueryItem where
  value : String
  name : String
  attributes : List (String × String)
  deriving DecidableEq, Repr

/-- `item.attributes[k]` (`none` = `undefined`). -/
def jsGetAttr (attrs : List (String × String)) (k : String) : Option String :=
  (attrs.find? (fun p => p.1 = k)).map (·.2)

/-- The attribute descriptor `getAttributesOnLoad` builds from one row. -/
structure AttrDesc where
  guid : String
  name : Option String
  title : String
  type : Option String
  relatedClass : Option String
  isName : Bool
  isPrimaryKey : Bool
  deriving DecidableEq, Repr

/-- The object literal pushed for one row (lines 460-468); the `== "True"` /
`== "1"` checks are exact string comparisons, false on `undefined`. -/
def mkAttr (it : QueryItem) : AttrDesc where
  guid := it.value
  name := jsGetAttr it.attributes "Name"
  title := it.name
  type := jsGetAttr it.attributes "DataType"
  relatedClass := jsGetAttr it.attributes "RelatedClassType.Guid"
  isName := jsGetAttr it.attributes "IsName" == some "True"
  isPrimaryKey := jsGetAttr it.attributes "PKeyNumber" == some "1"

/-- The `for` loop of `getAttributesOnLoad`: push a descriptor when the name
is not yet in `attributeNames` (case-sensitive `indexOf`), and overwrite
`parentObjectGuid` with each row's `Class.SuperClassType.Guid`. -/
def attrLoop : List QueryItem → List AttrDesc → List (Option String) → Option String →
    List AttrDesc × List (Option String) × Option String
  | [], acc, names, p => (acc, names, p)
  | it :: r, acc, names, _ =>
    let nm := jsGetAttr it.attributes "Name"
    let step : List AttrDesc × List (Option String) :=
      if nm ∈ names then (acc, names) else (acc ++ [mkAttr it], names ++ [nm])
    attrLoop r step.1 step.2 (jsGetAttr it.attributes "Class.SuperClassType.Guid")

/-- The recursion guard `parentObjectGuid != ""`: JS loose inequality, true
for `undefined` as well as for any non-empty string. -/
def jsStrNeEmpty : Option String → Bool
  | some s => s ≠ ""
  | none => true

/-- Lexicographic `≤` on character lists (JS string comparison as used by the
sort comparator). -/
def charListLe : List Char → List Char → Bool
  | [], _ => true
  | _ :: _, [] => false
  | a :: as, b :: bs => if a < b then true else if b < a then false else charListLe as bs

/-- The comparator of lines 480-493: case-insensitive comparison of titles. -/
def titleLe (a b : AttrDesc) : Prop :=
  charListLe (a.title.data.map Char.toLower) (b.title.data.map Char.toLower) = true

instance : DecidableRel titleLe := fun a b => by unfold titleLe; infer_instance

/-- `attributesArray.sort(...)` (a stable sort by the comparator). -/
def sortAttrs (l : List AttrDesc) : List AttrDesc := List.insertionSort titleLe l

/-- Result of one `runQuery` issued by the traversal, as seen by its
callbacks: the rows of `result.data.objects`, or the failure surfaced to
`parameters.onError` (abstracted to its error text). -/
inductive QResult where
  | ok (objects : List QueryItem)
  | fail (e : String)
  deriving DecidableEq, Repr

/-- A delivery made by `getAttributesForObject` to its caller. -/
inductive MetaDeliv where
  | onLoad (attributes : List AttrDesc)
  | onError (e : String)
  deriving DecidableEq, Repr

/-- Trace of one traversal: the guid of every issued query, every processed
row in traversal order, and the deliveries. -/
structure MetaRun where
  queries : List (Option String)
  rows : List QueryItem
  deliveries : List MetaDeliv
  deriving DecidableEq, Repr

/-- The mutual recursion `getAttributes` / `getAttributesOnLoad`, consuming
one oracle entry per issued query.  An exhausted oracle is a query that never
completes; a failure is passed to `parameters.onError` and ends the
traversal. -/
def getAttributesRun : Option String → List AttrDesc → List (Option String) →
    List QResult → MetaRun
  | guid, _, _, [] => ⟨[guid], [], []⟩
  | guid, _, _, .fail e :: _ => ⟨[guid], [], [.onError e]⟩
  | guid, acc, names, .ok objs :: rest =>
    let t := attrLoop objs acc names (some "")
    if jsStrNeEmpty t.2.2 then
      let r := getAttributesRun t.2.2 t.1 t.2.1 rest
      ⟨guid :: r.queries, objs ++ r.rows, r.deliveries⟩
    else
      ⟨[guid], objs, [.onLoad (sortAttrs t.1)]⟩

/-- `metadata.getAttributesForObject`: fresh accumulators, first query against
the requested guid. -/
def getAttributesForObject (objectGuid : String) (oracle : List QResult) : MetaRun :=
  getAttributesRun (some objectGuid) [] [] oracle

/-- First-occurrence filter: the pushed descriptors of a row list given the
names already seen (specification device for the dedup theorems; compare
`attrLoop`). -/
def dedupRows : List QueryItem → List (Option String) → List AttrDesc
  | [], _ => []
  | it :: r, seen =>
    let nm := jsGetAttr it.attributes "Name"
    if nm ∈ seen then dedupRows r seen else mkAttr it :: dedupRows r (seen ++ [nm])

/-- The parent guid a response reports: the last row's
`Class.SuperClassType.Guid`, or `""` for an empty row list. -/
def parentOf (objs : List QueryItem) : Option String :=
  objs.foldl (fun _ it => jsGetAttr it.attributes "Class.SuperClassType.Guid") (some "")

/-- A finite inheritance chain of responses: every level reports a non-empty
parent guid except the root, which reports an empty one. -/
inductive Chain : List QResult → Prop
  | root (objs : List QueryItem) (h : jsStrNeEmpty (parentOf objs) = false) :
      Chain [.ok objs]
  | step (objs : List QueryItem) (rest : List QResult)
      (h : jsStrNeEmpty (parentOf objs) = true) (hr : Chain rest) :
      Chain (.ok objs :: rest)

/-! ## Bounds and delivery predicates (specification devices) -/

/-- Upper bound on login transport calls from a given configuration
(specification device for C1). -/
def loginBound (site : CallSite) (st : ReqState) : Nat :=
  (if site.kind = .login then 1 else 0) + (if st.loginAttempted then 0 else 1)

/-- Upper bound on descriptor (`go`) transport calls from a given
configuration (specification device for C1). -/
def mainBound (site : CallSite) (st : ReqState) : Nat :=
  match site with
  | .main => 1 + (if st.loginAttempted then 0 else 1)
  | .login _ => if st.loginAttempted then 1 else 2
  | .logoff od => if od then 0 else if st.loginAttempted then 0 else 1

/-- A captured `m_result` whose `loggedOn`/`loggedOff` have not been stamped
(the state in which every capture leaves it). -/
def capturedFlagsNone (o : Option OutcomeObj) : Prop :=
  ∀ r, o = some r → r.loggedOn = none ∧ r.loggedOff = none

/-- How a delivery relates to the flags: `onLoad` deliveries carry a stamped
outcome, `onError` deliveries carry the outcome exactly as captured, with no
flags stamped. -/
def stampedDeliv (dl : Delivery) : Prop :=
  match dl.channel with
  | .load => ∃ r, dl.outcome = some r ∧ r.loggedOn.isSome ∧ r.loggedOff.isSome
  | .err => ∀ r, dl.outcome = some r → r.loggedOn = none ∧ r.loggedOff = none

/-! ## Concrete fixtures for counterexamples and witnesses -/

/-- A connection with `loginOnDemand` on and auto-log-off off. -/
def ci0 : ConnectionInfo := ⟨"https://wa", true, "user", "pw", false⟩

/-- A request descriptor against `ci0` with no response processor. -/
def ps0 : RequestParams := ⟨ci0, "/query/list.rails", [], none, true⟩

/-- A connection with both `loginOnDemand` and `loginOnDemandAutoLogOff` on. -/
def ci1 : ConnectionInfo := ⟨"https://wa", true, "user", "pw", true⟩

/-- A request descriptor against `ci1`. -/
def ps1 : RequestParams := ⟨ci1, "/query/list.rails", [], none, true⟩

/-- A connection with `loginOnDemand` off. -/
def ci2 : ConnectionInfo := ⟨"https://wa", false, "", "", false⟩

/-- A request descriptor against `ci2`. -/
def ps2 : RequestParams := ⟨ci2, "/query/list.rails", [], none, true⟩

/-- A state in which an on-demand login has happened and auto-log-off is
armed (the state of a request entering its replay). -/
def stAuto : ReqState := ⟨true, true, true, false, none, false⟩


/-! # Theorems -/

/-! ## splitChar lemmas -/

theorem splitChar_ne_nil (c : Char) (l : List Char) : splitChar c l ≠ [] := by
  cases l with
  | nil => simp [splitChar]
  | cons a rest =>
    simp only [splitChar]
    cases h : splitChar c rest with
    | nil => simp
    | cons g gs => by_cases hac : a = c <;> simp [hac]

theorem splitChar_of_not_mem {c : Char} {l : List Char} (h : c ∉ l) :
    splitChar c l = [l] := by
  induction l with
  | nil => rfl
  | cons a rest ih =>
    simp only [List.mem_cons, not_or] at h
    simp only [splitChar, ih h.2]
    rw [if_neg (fun hac => h.1 hac.symm)]

theorem splitChar_append_cons (c : Char) {l₁ : List Char} (l₂ : List Char)
    (h : c ∉ l₁) : splitChar c (l₁ ++ c :: l₂) = l₁ :: splitChar c l₂ := by
  induction l₁ with
  | nil =>
    simp only [List.nil_append, splitChar]
    cases hs : splitChar c l₂ with
    | nil => exact absurd hs (splitChar_ne_nil c l₂)
    | cons g gs => simp
  | cons a rest ih =>
    simp only [List.mem_cons, not_or] at h
    simp only [List.cons_append, splitChar, List.append_eq, ih h.2]
    rw [if_neg (fun hac => h.1 hac.symm)]


/-! ## Store frame lemmas -/

theorem Store.get_alloc_of_lt {σ : Store} {o : List (String × JSVal)} {i : Nat}
    (h : i < σ.objs.length) : (σ.alloc o).1.get i = σ.get i := by
  simp [Store.alloc, Store.get, List.getElem?_append_left h]

theorem Store.alloc_ref_ge {σ : Store} {o : List (String × JSVal)} :
    σ.objs.length ≤ (σ.alloc o).2 := by
  simp [Store.alloc]

theorem Store.get_setProp_ne {σ : Store} {r : Nat} {k : String} {v : JSVal} {i : Nat}
    (h : i ≠ r) : (σ.setProp r k v).get i = σ.get i := by
  simp [Store.setProp, Store.get, List.getElem?_set_ne (Ne.symm h)]

theorem Store.get_setProp_self {σ : Store} {r : Nat} {k : String} {v : JSVal}
    (h : r < σ.objs.length) : (σ.setProp r k v).get r = objInsert (σ.get r) k v := by
  simp [Store.setProp, Store.get, List.getElem?_set_self, h]

theorem Store.length_setProp {σ : Store} {r : Nat} {k : String} {v : JSVal} :
    (σ.setProp r k v).objs.length = σ.objs.length := by
  simp [Store.setProp]

/-- `_prepareSaveData` frame facts: objects existing before the call are
untouched, the returned reference is fresh, and its content is the JSON copy
of `attributeValues` extended with `class_name` and `is_new`. -/
theorem prepareSaveData_frame (σ : Store) (cn : String) (b : Bool) (av : Nat)
    (h : av < σ.objs.length) :
    (∀ i, i < σ.objs.length → (prepareSaveData σ cn b (some av)).1.get i = σ.get i) ∧
    σ.objs.length < (prepareSaveData σ cn b (some av)).2 ∧
    (prepareSaveData σ cn b (some av)).1.get (prepareSaveData σ cn b (some av)).2 =
      objInsert (objInsert (jsonRoundTripObj (σ.get av)) "class_name" (.str cn))
        "is_new" (.bool b) := by
  have hget : ∀ i, i < σ.objs.length →
      ((σ.alloc []).1.alloc (jsonRoundTripObj ((σ.alloc []).1.get av))).1.get i = σ.get i := by
    intro i hi
    rw [Store.get_alloc_of_lt (by simp [Store.alloc]; omega), Store.get_alloc_of_lt hi]
  have hr : ((σ.alloc []).1.alloc (jsonRoundTripObj ((σ.alloc []).1.get av))).2 =
      σ.objs.length + 1 := by
    simp [Store.alloc]
  have hlen : ((σ.alloc []).1.alloc (jsonRoundTripObj ((σ.alloc []).1.get av))).1.objs.length =
      σ.objs.length + 2 := by
    simp [Store.alloc]
  refine ⟨?_, ?_, ?_⟩
  · intro i hi
    simp only [prepareSaveData]
    rw [Store.get_setProp_ne (by rw [hr]; omega), Store.get_setProp_ne (by rw [hr]; omega),
      hget i hi]
  · simp only [prepareSaveData]
    rw [hr]; omega
  · simp only [prepareSaveData]
    rw [Store.get_setProp_self (by rw [Store.length_setProp, hlen, hr]; omega),
      Store.get_setProp_self (by rw [hlen, hr]; omega)]
    have hx : (σ.alloc []).1.get av = σ.get av := Store.get_alloc_of_lt h
    have hcontent :
        ((σ.alloc []).1.alloc (jsonRoundTripObj ((σ.alloc []).1.get av))).1.get
          ((σ.alloc []).1.alloc (jsonRoundTripObj ((σ.alloc []).1.get av))).2 =
        jsonRoundTripObj (σ.get av) := by
      rw [hx]
      simp only [Store.alloc, Store.get, List.append_assoc, List.singleton_append,
        List.length_append, List.length_cons, List.length_nil]
      rw [List.getElem?_append_right (by omega)]
      simp
    rw [hcontent]

/-! ## C9: the query response processor -/

/-- C9: for every query response processed by `query._queryResponseProcessor`,
`pageCount`, `objects` and all other fields are left unchanged, and
`objectCount` is set to `objects.length` exactly when the reported `pageCount`
equals `1` (JS loose comparison), being left unchanged otherwise. -/
theorem queryResponseProcessor_objectCount (r : QueryResponseData) :
    (queryResponseProcessor r).pageCount = r.pageCount ∧
    (queryResponseProcessor r).objects = r.objects ∧
    (queryResponseProcessor r).rest = r.rest ∧
    (queryResponseProcessor r).objectCount =
      (if jsLooseEqNum r.pageCount 1 then .num (.ofNat r.objects.length)
       else r.objectCount) := by
  unfold queryResponseProcessor
  split <;> simp_all

/-! ## C10: the save-payload builders never mutate `attributeValues` -/

/-- C10: `createRecord`, `createProcessRecord`, `updateRecord`,
`collectionAction` and `updateAction` leave the caller's `attributeValues`
object untouched: the payload keys go onto the fresh deep copy made by
`_prepareSaveData` (whose content is that copy extended with `class_name` and
`is_new`), never onto the caller's object. -/
theorem builders_do_not_mutate_attributeValues (σ : Store) (av : Nat)
    (h : av < σ.objs.length) (cn key pcn pk an lcc : String) (lc tm : Option String) :
    ((createRecord σ cn (some av)).1.get av = σ.get av ∧
      (createRecord σ cn (some av)).2 ≠ av) ∧
    ((createProcessRecord σ cn lc tm (some av)).1.get av = σ.get av ∧
      (createProcessRecord σ cn lc tm (some av)).2 ≠ av) ∧
    ((updateRecord σ cn key (some av)).1.get av = σ.get av ∧
      (updateRecord σ cn key (some av)).2 ≠ av) ∧
    ((collectionAction σ pcn pk an lcc (some av)).1.get av = σ.get av ∧
      (collectionAction σ pcn pk an lcc (some av)).2 ≠ av) ∧
    ((updateAction σ cn key an (some av)).1.get av = σ.get av ∧
      (updateAction σ cn key an (some av)).2 ≠ av) ∧
    (createRecord σ cn (some av)).1.get (createRecord σ cn (some av)).2 =
      objInsert (objInsert (jsonRoundTripObj (σ.get av)) "class_name" (.str cn))
        "is_new" (.bool true) := by
  refine ⟨?_, ?_, ?_, ?_, ?_, ?_⟩
  · obtain ⟨hf, hrg, _⟩ := prepareSaveData_frame σ cn true av h
    exact ⟨hf av h, by simp only [createRecord]; omega⟩
  · rcases hp : prepareSaveData σ cn true (some av) with ⟨σ1, r⟩
    obtain ⟨hf, hrg, _⟩ := prepareSaveData_frame σ cn true av h
    rw [hp] at hf hrg
    have hne : av ≠ r := by omega
    simp only [createProcessRecord, hp]
    constructor
    · split <;> split <;>
        simp only [Store.get_setProp_ne hne, hf av h]
    · omega
  · rcases hp : prepareSaveData σ cn false (some av) with ⟨σ1, r⟩
    obtain ⟨hf, hrg, _⟩ := prepareSaveData_frame σ cn false av h
    rw [hp] at hf hrg
    have hne : av ≠ r := by omega
    simp only [updateRecord, hp]
    exact ⟨by simp only [Store.get_setProp_ne hne, hf av h], by omega⟩
  · rcases hp : prepareSaveData σ lcc true (some av) with ⟨σ1, r⟩
    obtain ⟨hf, hrg, _⟩ := prepareSaveData_frame σ lcc true av h
    rw [hp] at hf hrg
    have hne : av ≠ r := by omega
    simp only [collectionAction, hp]
    exact ⟨by simp only [Store.get_setProp_ne hne, hf av h], by omega⟩
  · rcases hp : prepareSaveData σ cn false (some av) with ⟨σ1, r⟩
    obtain ⟨hf, hrg, _⟩ := prepareSaveData_frame σ cn false av h
    rw [hp] at hf hrg
    have hne : av ≠ r := by omega
    simp only [updateAction, hp]
    exact ⟨by simp only [Store.get_setProp_ne hne, hf av h], by omega⟩
  · simpa only [createRecord] using (prepareSaveData_frame σ cn true av h).2.2

/-- Witness for C10 at a concrete one-object store. -/
theorem builders_do_not_mutate_attributeValues_witness :
    (0 < (Store.mk [[("Title", JSVal.str "T")]]).objs.length) ∧
    (((createRecord ⟨[[("Title", .str "T")]]⟩ "Incident" (some 0)).1.get 0 =
        (Store.mk [[("Title", JSVal.str "T")]]).get 0 ∧
      (createRecord ⟨[[("Title", .str "T")]]⟩ "Incident" (some 0)).2 ≠ 0) ∧
     ((createProcessRecord ⟨[[("Title", .str "T")]]⟩ "Incident" (some "lc") none (some 0)).1.get 0 =
        (Store.mk [[("Title", JSVal.str "T")]]).get 0 ∧
      (createProcessRecord ⟨[[("Title", .str "T")]]⟩ "Incident" (some "lc") none (some 0)).2 ≠ 0) ∧
     ((updateRecord ⟨[[("Title", .str "T")]]⟩ "Incident" "k1" (some 0)).1.get 0 =
        (Store.mk [[("Title", JSVal.str "T")]]).get 0 ∧
      (updateRecord ⟨[[("Title", .str "T")]]⟩ "Incident" "k1" (some 0)).2 ≠ 0) ∧
     ((collectionAction ⟨[[("Title", .str "T")]]⟩ "Incident" "k1" "AddNote" "IncidentNote" (some 0)).1.get 0 =
        (Store.mk [[("Title", JSVal.str "T")]]).get 0 ∧
      (collectionAction ⟨[[("Title", .str "T")]]⟩ "Incident" "k1" "AddNote" "IncidentNote" (some 0)).2 ≠ 0) ∧
     ((updateAction ⟨[[("Title", .str "T")]]⟩ "Incident" "k1" "Resolve" (some 0)).1.get 0 =
        (Store.mk [[("Title", JSVal.str "T")]]).get 0 ∧
      (updateAction ⟨[[("Title", .str "T")]]⟩ "Incident" "k1" "Resolve" (some 0)).2 ≠ 0) ∧
     (createRecord ⟨[[("Title", .str "T")]]⟩ "Incident" (some 0)).1.get
        (createRecord ⟨[[("Title", .str "T")]]⟩ "Incident" (some 0)).2 =
      objInsert (objInsert (jsonRoundTripObj ((Store.mk [[("Title", JSVal.str "T")]]).get 0))
        "class_name" (.str "Incident")) "is_new" (.bool true)) :=
  ⟨by decide,
   builders_do_not_mutate_attributeValues ⟨[[("Title", .str "T")]]⟩ 0 (by decide)
     "Incident" "k1" "Incident" "k1" "AddNote" "IncidentNote" (some "lc") none⟩

/-! ## C7: parseQueryUrl on the documented example -/

/-- C7 counterexample: on
`"https://host/app?class_name=Incident&query=MyQuery&page_size=50"` the
function does NOT return `webAccessUrl = "https://host/app"`: the fourth
`/`-delimited segment of `pairs[0]` still carries the query text, so the
extracted base URL is `"https://host/app?class_name=Incident"`. -/
theorem parseQueryUrl_example_counterexample :
    parseQueryUrl "https://host/app?class_name=Incident&query=MyQuery&page_size=50" =
      .ok ⟨some "https://host/app?class_name=Incident",
        [("class_name", .str "Incident"), ("query", .str "MyQuery"),
         ("page_size", .num ⟨50, 1⟩)]⟩ ∧
    (some "https://host/app?class_name=Incident" : Option String) ≠
      some "https://host/app" := by
  exact ⟨by decide, by decide⟩

/-- C7 (amended): `parseQueryUrl` applied to
`"https://host/app?class_name=Incident&query=MyQuery&page_size=50"` returns
`webAccessUrl = "https://host/app?class_name=Incident"` (the base-URL slice
keeps the query text glued to the fourth path segment) and
`queryData = (class_name: "Incident", query: "MyQuery", page_size: 50)`, with
`page_size` the number `50`. -/
theorem parseQueryUrl_example :
    parseQueryUrl "https://host/app?class_name=Incident&query=MyQuery&page_size=50" =
      .ok ⟨some "https://host/app?class_name=Incident",
        [("class_name", .str "Incident"), ("query", .str "MyQuery"),
         ("page_size", .num ⟨50, 1⟩)]⟩ := by
  decide

/-! ## C8: pair splitting in parseQueryUrl -/

theorem jsSplit_eq_two {n v : String} (hn : '=' ∉ n.data) (hv : '=' ∉ v.data) :
    jsSplit '=' (n ++ "=" ++ v) = [n, v] := by
  unfold jsSplit
  have hd : (n ++ "=" ++ v).data = n.data ++ '=' :: v.data := by
    simp [String.data_append]
  rw [hd, splitChar_append_cons _ _ hn, splitChar_of_not_mem hv]
  rfl

theorem jsSplit_eq_three {n v w : String} (hn : '=' ∉ n.data) (hv : '=' ∉ v.data) :
    jsSplit '=' (n ++ "=" ++ v ++ "=" ++ w) =
      n :: v :: (splitChar '=' w.data).map String.mk := by
  unfold jsSplit
  have hd : (n ++ "=" ++ v ++ "=" ++ w).data = n.data ++ '=' :: (v.data ++ '=' :: w.data) := by
    simp [String.data_append]
  rw [hd, splitChar_append_cons _ _ hn, splitChar_append_cons _ _ hv]
  rfl

/-- C8 counterexample: a value containing a further `=` is NOT preserved in
full.  `"class_name=A&query=x=y"` stores `query = "x"`: `split("=")` splits at
every `=` and only `pair[1]` is read, so `"y"` is discarded (the claim
demands the value `"x=y"`). -/
theorem parseQueryUrl_second_eq_counterexample :
    parseQueryUrl "class_name=A&query=x=y" =
      .ok ⟨none, [("class_name", .str "A"), ("query", .str "x")]⟩ ∧
    JSVal.str "x" ≠ .str "x=y" := by
  exact ⟨by decide, by decide⟩

/-- C8 (amended): each pair is split at every `=`, and only the first two
fields are used: the stored name is the percent-decode of the text before the
first `=`, the stored value is computed from the text between the first and
the second `=` alone (percent-decoded when JS `isNaN` holds of it, converted
with `parseFloat` otherwise), and any text after a second `=` is discarded. -/
theorem parsePair_drops_after_second_eq (n v w : String)
    (hn : '=' ∉ n.data) (hv : '=' ∉ v.data) :
    parsePair (n ++ "=" ++ v ++ "=" ++ w) = parsePair (n ++ "=" ++ v) ∧
    parsePair (n ++ "=" ++ v) =
      (jsDecodeURIComponent n).bind (fun nm =>
        (if jsIsNaN v then (jsDecodeURIComponent v).map JSVal.str
         else some (jsParseFloat v)).map (fun vl => (nm, vl))) := by
  constructor
  · unfold parsePair
    rw [jsSplit_eq_three hn hv, jsSplit_eq_two hn hv]
    simp only [List.headD_cons, List.getElem?_cons_succ, List.getElem?_cons_zero]
  · unfold parsePair
    rw [jsSplit_eq_two hn hv]
    by_cases hNaN : jsIsNaN v <;>
      cases hdn : jsDecodeURIComponent n <;>
        cases hdv : jsDecodeURIComponent v <;>
          simp [hNaN, hdn, hdv]

/-- Witness for C8 at `name = "query"`, `value = "x"`, discarded tail
`"y=z"`. -/
theorem parsePair_drops_after_second_eq_witness :
    ('=' ∉ "query".data ∧ '=' ∉ "x".data) ∧
    (parsePair ("query" ++ "=" ++ "x" ++ "=" ++ "y=z") = parsePair ("query" ++ "=" ++ "x") ∧
     parsePair ("query" ++ "=" ++ "x") =
       (jsDecodeURIComponent "query").bind (fun nm =>
         (if jsIsNaN "x" then (jsDecodeURIComponent "x").map JSVal.str
          else some (jsParseFloat "x")).map (fun vl => (nm, vl)))) :=
  ⟨⟨by decide, by decide⟩,
   parsePair_drops_after_second_eq "query" "x" "y=z" (by decide) (by decide)⟩

/-! ## Metadata traversal lemmas -/

theorem mkAttr_name (it : QueryItem) :
    (mkAttr it).name = jsGetAttr it.attributes "Name" := rfl

theorem attrLoop_acc (l : List QueryItem) :
    ∀ acc names p,
      (attrLoop l acc names p).1 = acc ++ dedupRows l names ∧
      (attrLoop l acc names p).2.1 = names ++ (dedupRows l names).map AttrDesc.name := by
  induction l with
  | nil => intro acc names p; simp [attrLoop, dedupRows]
  | cons it r ih =>
    intro acc names p
    simp only [attrLoop, dedupRows]
    by_cases hm : jsGetAttr it.attributes "Name" ∈ names
    · simpa only [if_pos hm] using ih acc names _
    · simp only [if_neg hm]
      obtain ⟨h1, h2⟩ :=
        ih (acc ++ [mkAttr it]) (names ++ [jsGetAttr it.attributes "Name"]) _
      constructor
      · rw [h1, List.append_assoc]; rfl
      · rw [h2, List.append_assoc]; rfl

theorem attrLoop_parent (l : List QueryItem) :
    ∀ acc names p, (attrLoop l acc names p).2.2 =
      l.foldl (fun _ it => jsGetAttr it.attributes "Class.SuperClassType.Guid") p := by
  induction l with
  | nil => intro acc names p; rfl
  | cons it r ih => intro acc names p; simp only [attrLoop, List.foldl]; exact ih _ _ _

theorem dedupRows_names_nodup (l : List QueryItem) :
    ∀ seen, (∀ x ∈ (dedupRows l seen).map AttrDesc.name, x ∉ seen) ∧
      ((dedupRows l seen).map AttrDesc.name).Nodup := by
  induction l with
  | nil => intro seen; simp [dedupRows]
  | cons it r ih =>
    intro seen
    simp only [dedupRows]
    by_cases hm : jsGetAttr it.attributes "Name" ∈ seen
    · simpa only [if_pos hm] using ih seen
    · simp only [if_neg hm, List.map_cons, List.nodup_cons]
      obtain ⟨hns, hnd⟩ := ih (seen ++ [jsGetAttr it.attributes "Name"])
      refine ⟨?_, ?_, hnd⟩
      · intro x hx
        rcases List.mem_cons.mp hx with hx1 | hx2
        · intro hxs
          have hx1n : x = jsGetAttr it.attributes "Name" := hx1
          exact hm (hx1n ▸ hxs)
        · intro hxs
          exact hns x hx2 (List.mem_append_left _ hxs)
      · intro hmem
        have := hns _ hmem
        exact this (List.mem_append_right _ (List.mem_singleton.mpr rfl))

theorem dedupRows_first (l : List QueryItem) :
    ∀ seen a, a ∈ dedupRows l seen →
      a.name ∉ seen ∧
      ∃ it, l.find? (fun row => jsGetAttr row.attributes "Name" == a.name) = some it ∧
        a = mkAttr it := by
  induction l with
  | nil => intro seen a ha; simp [dedupRows] at ha
  | cons it r ih =>
    intro seen a ha
    simp only [dedupRows] at ha
    by_cases hm : jsGetAttr it.attributes "Name" ∈ seen
    · rw [if_pos hm] at ha
      obtain ⟨hns, itw, hfind, heq⟩ := ih seen a ha
      refine ⟨hns, itw, ?_, heq⟩
      rw [List.find?_cons_of_neg]
      · exact hfind
      · simp only [beq_iff_eq]
        intro hcon
        exact hns (hcon ▸ hm)
    · rw [if_neg hm] at ha
      rcases List.mem_cons.mp ha with heq | ha2
      · subst heq
        refine ⟨hm, it, ?_, rfl⟩
        rw [List.find?_cons_of_pos]
        simp [mkAttr_name]
      · obtain ⟨hns, itw, hfind, heqa⟩ := ih _ a ha2
        refine ⟨fun hs => hns (List.mem_append_left _ hs), itw, ?_, heqa⟩
        rw [List.find?_cons_of_neg]
        · exact hfind
        · simp only [beq_iff_eq]
          intro hcon
          exact hns (hcon ▸ List.mem_append_right _ (List.mem_singleton.mpr rfl))

theorem dedupRows_append (l₁ l₂ : List QueryItem) :
    ∀ seen, dedupRows (l₁ ++ l₂) seen =
      dedupRows l₁ seen ++ dedupRows l₂ (seen ++ (dedupRows l₁ seen).map AttrDesc.name) := by
  induction l₁ with
  | nil => intro seen; simp [dedupRows]
  | cons it r ih =>
    intro seen
    simp only [List.cons_append, dedupRows]
    by_cases hm : jsGetAttr it.attributes "Name" ∈ seen
    · simp only [if_pos hm]; exact ih seen
    · simp only [if_neg hm, List.map_cons, List.cons_append, List.append_eq]
      rw [ih (seen ++ [jsGetAttr it.attributes "Name"])]
      simp [mkAttr_name, List.append_assoc]

theorem getAttributesRun_onLoad (oracle : List QResult) :
    ∀ guid acc names L,
      MetaDeliv.onLoad L ∈ (getAttributesRun guid acc names oracle).deliveries →
      L = sortAttrs (acc ++ dedupRows (getAttributesRun guid acc names oracle).rows names) := by
  induction oracle with
  | nil => intro guid acc names L hL; simp [getAttributesRun] at hL
  | cons q rest ih =>
    intro guid acc names L hL
    cases q with
    | fail e => simp [getAttributesRun] at hL
    | ok objs =>
      simp only [getAttributesRun] at hL ⊢
      by_cases hp : jsStrNeEmpty (attrLoop objs acc names (some "")).2.2
      · rw [if_pos hp] at hL ⊢
        have hrec := ih (attrLoop objs acc names (some "")).2.2
          (attrLoop objs acc names (some "")).1 (attrLoop objs acc names (some "")).2.1 L hL
        obtain ⟨ha1, ha2⟩ := attrLoop_acc objs acc names (some "")
        rw [ha1, ha2] at hrec
        rw [hrec, dedupRows_append, ← List.append_assoc, ha1, ha2]
      · rw [if_neg hp] at hL ⊢
        simp only [MetaRun.deliveries, List.mem_singleton, MetaDeliv.onLoad.injEq] at hL
        rw [hL, (attrLoop_acc objs acc names (some "")).1]

/-- C2: for a finite inheritance chain of `N` responses (every level reporting
a non-empty parent guid except the root, which reports an empty one),
`getAttributesForObject` issues exactly `N` schema queries, terminates, and
delivers its result to the caller exactly once (a single `onLoad`). -/
theorem getAttributesForObject_chain_queries (oracle : List QResult) (hc : Chain oracle)
    (objectGuid : String) :
    (getAttributesForObject objectGuid oracle).queries.length = oracle.length ∧
    ∃ L, (getAttributesForObject objectGuid oracle).deliveries = [MetaDeliv.onLoad L] := by
  suffices h : ∀ guid acc names,
      (getAttributesRun guid acc names oracle).queries.length = oracle.length ∧
      ∃ L, (getAttributesRun guid acc names oracle).deliveries = [MetaDeliv.onLoad L] by
    exact h (some objectGuid) [] []
  induction hc with
  | root objs h =>
    intro guid acc names
    have hpar : (attrLoop objs acc names (some "")).2.2 = parentOf objs :=
      attrLoop_parent objs acc names (some "")
    simp only [getAttributesRun, hpar, h, Bool.false_eq_true, if_false]
    exact ⟨rfl, _, rfl⟩
  | step objs rest h hr ih =>
    intro guid acc names
    have hpar : (attrLoop objs acc names (some "")).2.2 = parentOf objs :=
      attrLoop_parent objs acc names (some "")
    simp only [getAttributesRun, hpar, h, if_true]
    obtain ⟨hq, L, hd⟩ := ih (attrLoop objs acc names (some "")).2.2
      (attrLoop objs acc names (some "")).1 (attrLoop objs acc names (some "")).2.1
    rw [hpar] at hq hd
    exact ⟨by simp [hq], L, by simp [hd]⟩

/-- Witness for C2: a two-level chain (derived class, then root). -/
theorem getAttributesForObject_chain_queries_witness :
    Chain [QResult.ok [⟨"a1", "Zeta", [("Name", "X"), ("Class.SuperClassType.Guid", "gB")]⟩],
           QResult.ok [⟨"a2", "Alpha", [("Name", "Y"), ("Class.SuperClassType.Guid", "")]⟩]] ∧
    ((getAttributesForObject "gD"
        [QResult.ok [⟨"a1", "Zeta", [("Name", "X"), ("Class.SuperClassType.Guid", "gB")]⟩],
         QResult.ok [⟨"a2", "Alpha", [("Name", "Y"), ("Class.SuperClassType.Guid", "")]⟩]]).queries.length =
      2 ∧
     ∃ L, (getAttributesForObject "gD"
        [QResult.ok [⟨"a1", "Zeta", [("Name", "X"), ("Class.SuperClassType.Guid", "gB")]⟩],
         QResult.ok [⟨"a2", "Alpha", [("Name", "Y"), ("Class.SuperClassType.Guid", "")]⟩]]).deliveries =
      [MetaDeliv.onLoad L]) :=
  have hchain : Chain [QResult.ok [⟨"a1", "Zeta", [("Name", "X"), ("Class.SuperClassType.Guid", "gB")]⟩],
      QResult.ok [⟨"a2", "Alpha", [("Name", "Y"), ("Class.SuperClassType.Guid", "")]⟩]] :=
    Chain.step _ _ (by decide) (Chain.root _ (by decide))
  ⟨hchain, getAttributesForObject_chain_queries _ hchain "gD"⟩

/-- C3: every attribute list delivered by `getAttributesForObject` is free of
duplicate names (case-sensitive comparison), and each delivered descriptor is
built from the FIRST row of the traversal (most-derived class first) whose
`Name` matches — a same-named attribute of an ancestor is discarded. -/
theorem getAttributesForObject_dedup (objectGuid : String) (oracle : List QResult)
    (L : List AttrDesc)
    (hL : MetaDeliv.onLoad L ∈ (getAttributesForObject objectGuid oracle).deliveries) :
    (L.map AttrDesc.name).Nodup ∧
    ∀ a ∈ L, ∃ it,
      (getAttributesForObject objectGuid oracle).rows.find?
        (fun row => jsGetAttr row.attributes "Name" == a.name) = some it ∧
      a = mkAttr it := by
  have hchar := getAttributesRun_onLoad oracle (some objectGuid) [] [] L hL
  simp only [List.nil_append] at hchar
  have hperm : L.Perm (dedupRows (getAttributesForObject objectGuid oracle).rows []) := by
    rw [hchar]
    exact List.perm_insertionSort titleLe _
  constructor
  · exact ((hperm.map AttrDesc.name).nodup_iff).mpr
      ((dedupRows_names_nodup (getAttributesForObject objectGuid oracle).rows) []).2
  · intro a ha
    have ha2 := hperm.subset ha
    obtain ⟨hns, itw, hfind, heq⟩ :=
      dedupRows_first (getAttributesForObject objectGuid oracle).rows [] a ha2
    exact ⟨itw, hfind, heq⟩

/-- Witness for C3: a derived class and its ancestor both define `"X"`; the
delivered list keeps the derived descriptor only. -/
theorem getAttributesForObject_dedup_witness :
    (MetaDeliv.onLoad [mkAttr ⟨"a1", "Zeta", [("Name", "X"), ("Class.SuperClassType.Guid", "gB")]⟩] ∈
      (getAttributesForObject "gD"
        [QResult.ok [⟨"a1", "Zeta", [("Name", "X"), ("Class.SuperClassType.Guid", "gB")]⟩],
         QResult.ok [⟨"a3", "Alpha", [("Name", "X"), ("Class.SuperClassType.Guid", "")]⟩]]).deliveries) ∧
    (([mkAttr ⟨"a1", "Zeta", [("Name", "X"), ("Class.SuperClassType.Guid", "gB")]⟩].map
        AttrDesc.name).Nodup ∧
     ∀ a ∈ [mkAttr ⟨"a1", "Zeta", [("Name", "X"), ("Class.SuperClassType.Guid", "gB")]⟩], ∃ it,
        (getAttributesForObject "gD"
          [QResult.ok [⟨"a1", "Zeta", [("Name", "X"), ("Class.SuperClassType.Guid", "gB")]⟩],
           QResult.ok [⟨"a3", "Alpha", [("Name", "X"), ("Class.SuperClassType.Guid", "")]⟩]]).rows.find?
            (fun row => jsGetAttr row.attributes "Name" == a.name) = some it ∧
        a = mkAttr it) :=
  ⟨by decide, getAttributesForObject_dedup "gD" _ _ (by decide)⟩

/-! ## Orchestrator: transition facts -/

theorem next_of_mOnLoad {ps : RequestParams} {st : ReqState} {d : JSResponseData} {s : Nat}
    {s2 : CallSite} {st2 : ReqState} (h : mOnLoad ps st d s = .call s2 st2) :
    s2 = .logoff true ∧ st2.loginAttempted = st.loginAttempted := by
  unfold mOnLoad at h
  split at h
  · rw [Next.call.injEq] at h
    exact ⟨h.1.symm, by rw [← h.2]; rfl⟩
  · exact absurd h (by simp)

theorem next_of_mOnError {ps : RequestParams} {st : ReqState} {c : Nat} {t : String}
    {s2 : CallSite} {st2 : ReqState} (h : mOnError ps st c t = .call s2 st2) :
    (s2 = .login true ∧ st.loginAttempted = false ∧ st2.loginAttempted = true) ∨
    (s2 = .logoff true ∧ st2.loginAttempted = st.loginAttempted) := by
  unfold mOnError at h
  split at h
  · rename_i hc
    rw [Next.call.injEq] at h
    exact .inl ⟨h.1.symm, hc.2.1, by rw [← h.2]; rfl⟩
  · split at h
    · rw [Next.call.injEq] at h
      exact .inr ⟨h.1.symm, by rw [← h.2]; rfl⟩
    · exact absurd h (by simp)

theorem next_of_mLoginOnDemandOnLoad {ps : RequestParams} {st : ReqState}
    {d : JSResponseData} {s2 : CallSite} {st2 : ReqState}
    (h : mLoginOnDemandOnLoad ps st d = .call s2 st2) :
    (s2 = .main ∧ st2.loginAttempted = st.loginAttempted) ∨
    (s2 = .login true ∧ st.loginAttempted = false ∧ st2.loginAttempted = true) ∨
    (s2 = .logoff true ∧ st2.loginAttempted = st.loginAttempted) := by
  unfold mLoginOnDemandOnLoad at h
  split at h
  · rcases next_of_mOnError h with h1 | h2
    · exact .inr (.inl h1)
    · exact .inr (.inr h2)
  · rw [Next.call.injEq] at h
    refine .inl ⟨h.1.symm, ?_⟩
    rw [← h.2]
    split <;> rfl

theorem next_of_mLogOffDone {st : ReqState} {s2 : CallSite} {st2 : ReqState}
    (h : mLogOffDone st = .call s2 st2) : False := by
  unfold mLogOffDone at h
  split at h <;> simp at h

/-- Every transition of the state machine: a new transport call is a logout,
a first login (setting the one-shot latch), or (from the login site only) the
replay of the original call; the latch is never reset; the logout site in
on-demand mode makes no further call. -/
theorem afterEvent_call_cases (ps : RequestParams) (site : CallSite) (st : ReqState)
    (ev : TransportResult) (s2 : CallSite) (st2 : ReqState)
    (h : afterEvent ps site st ev = .call s2 st2) :
    site ≠ .logoff true ∧
    ((s2 = .logoff true ∧ st2.loginAttempted = st.loginAttempted) ∨
     (s2 = .login true ∧ st.loginAttempted = false ∧ st2.loginAttempted = true) ∨
     (s2 = .main ∧ st2.loginAttempted = st.loginAttempted ∧ ∃ od, site = .login od)) := by
  cases site with
  | main =>
    refine ⟨by simp, ?_⟩
    cases ev with
    | load d s =>
      simp only [afterEvent] at h
      exact .inl (next_of_mOnLoad h)
    | err c t =>
      simp only [afterEvent] at h
      rcases next_of_mOnError h with h1 | h2
      · exact .inr (.inl h1)
      · exact .inl h2
  | login od =>
    refine ⟨by simp, ?_⟩
    cases ev with
    | load d s =>
      simp only [afterEvent] at h
      cases od with
      | true =>
        simp only [if_pos] at h
        rcases next_of_mLoginOnDemandOnLoad h with h1 | h2 | h3
        · exact .inr (.inr ⟨h1.1, h1.2, true, rfl⟩)
        · exact .inr (.inl h2)
        · exact .inl h3
      | false =>
        simp only [Bool.false_eq_true, if_false] at h
        exact .inl (next_of_mOnLoad h)
    | err c t =>
      simp only [afterEvent] at h
      rcases next_of_mOnError h with h1 | h2
      · exact .inr (.inl h1)
      · exact .inl h2
  | logoff od =>
    cases od with
    | true =>
      exfalso
      cases ev with
      | load d s =>
        simp only [afterEvent, if_pos] at h
        exact next_of_mLogOffDone h
      | err c t =>
        simp only [afterEvent, if_pos] at h
        exact next_of_mLogOffDone h
    | false =>
      refine ⟨by simp, ?_⟩
      cases ev with
      | load d s =>
        simp only [afterEvent, Bool.false_eq_true, if_false] at h
        exact .inl (next_of_mOnLoad h)
      | err c t =>
        simp only [afterEvent, Bool.false_eq_true, if_false] at h
        rcases next_of_mOnError h with h1 | h2
        · exact .inr (.inl h1)
        · exact .inl h2

theorem run_cons_call {ps : RequestParams} {site : CallSite} {st : ReqState}
    {ev : TransportResult} {rest : List TransportResult} {s2 : CallSite} {st2 : ReqState}
    (hA : afterEvent ps site st ev = .call s2 st2) :
    run ps site st (ev :: rest) =
      (site.kind :: (run ps s2 st2 rest).1, (run ps s2 st2 rest).2) := by
  rcases hrun : run ps s2 st2 rest with ⟨cs, ds⟩
  simp [run, hA, hrun]

theorem run_cons_done {ps : RequestParams} {site : CallSite} {st : ReqState}
    {ev : TransportResult} {rest : List TransportResult} {ds : List Delivery}
    (hA : afterEvent ps site st ev = .done ds) :
    run ps site st (ev :: rest) = ([site.kind], ds) := by
  simp [run, hA]

theorem count_base_le (site : CallSite) (st : ReqState) :
    ([site.kind].count CallKind.login ≤ loginBound site st) ∧
    ([site.kind].count CallKind.main ≤ mainBound site st) := by
  cases site <;>
    constructor <;>
      simp only [loginBound, mainBound, CallSite.kind, List.count_cons, List.count_nil,
        beq_iff_eq, reduceCtorEq, if_true, if_false] <;>
    omega

theorem run_bounds (ps : RequestParams) (oracle : List TransportResult) :
    ∀ site st,
      ((run ps site st oracle).1.count .login ≤ loginBound site st) ∧
      ((run ps site st oracle).1.count .main ≤ mainBound site st) := by
  induction oracle with
  | nil =>
    intro site st
    simpa only [run] using count_base_le site st
  | cons ev rest ih =>
    intro site st
    cases hA : afterEvent ps site st ev with
    | done ds =>
      rw [run_cons_done hA]
      exact count_base_le site st
    | call s2 st2 =>
      rw [run_cons_call hA]
      obtain ⟨hnlt, hcases⟩ := afterEvent_call_cases ps site st ev s2 st2 hA
      obtain ⟨ihl, ihm⟩ := ih s2 st2
      simp only [List.count_cons, beq_iff_eq]
      have hsubL : loginBound s2 st2 ≤ (if st.loginAttempted then 0 else 1) := by
        rcases hcases with ⟨hs2, hlatch⟩ | ⟨hs2, hst, hlatch⟩ | ⟨hs2, hlatch, od, hsite⟩
        · subst hs2; simp [loginBound, CallSite.kind, hlatch]
        · subst hs2; simp [loginBound, CallSite.kind, hlatch, hst]
        · subst hs2; simp [loginBound, CallSite.kind, hlatch]
      constructor
      · have h1 : (run ps s2 st2 rest).1.count .login ≤ (if st.loginAttempted then 0 else 1) :=
          le_trans ihl hsubL
        simp only [loginBound]
        omega
      · rcases hcases with ⟨hs2, hlatch⟩ | ⟨hs2, hst, hlatch⟩ | ⟨hs2, hlatch, od, hsite⟩
        · subst hs2
          have hb : mainBound (.logoff true) st2 = 0 := rfl
          rw [hb] at ihm
          cases site with
          | main => simp [CallSite.kind, mainBound]; split_ifs <;> omega
          | login od2 => simp [CallSite.kind, mainBound]; split_ifs <;> omega
          | logoff od2 =>
            cases od2 with
            | true => exact absurd rfl hnlt
            | false => simp [CallSite.kind, mainBound]; split_ifs <;> omega
        · subst hs2
          have hb : mainBound (.login true) st2 = 1 := by
            simp [mainBound, hlatch]
          rw [hb] at ihm
          cases site with
          | main => simp [CallSite.kind, mainBound, hst]; omega
          | login od2 => simp [CallSite.kind, mainBound, hst]; omega
          | logoff od2 =>
            cases od2 with
            | true => exact absurd rfl hnlt
            | false => simp [CallSite.kind, mainBound, hst]; omega
        · subst hs2
          subst hsite
          have hb : mainBound .main st2 = 1 + (if st.loginAttempted then 0 else 1) := by
            simp only [mainBound, hlatch]
          rw [hb] at ihm
          by_cases hstl : st.loginAttempted = true <;>
            simp [hstl, CallSite.kind, mainBound] at ihm ⊢ <;> omega

/-- C1: over the lifetime of one `webAccessRequest` started with `go()`, at
most one login transport call is made (the `m_loginAttempted` latch is set
before the login call and never reset), and hence the original call is made
at most twice (the initial attempt plus at most one replay) — even when the
replay itself reports a 403. -/
theorem webAccessRequest_login_once (ps : RequestParams) (oracle : List TransportResult) :
    (run ps .main initState oracle).1.count .login ≤ 1 ∧
    (run ps .main initState oracle).1.count .main ≤ 2 := by
  have h := run_bounds ps oracle .main initState
  have hl : loginBound .main initState = 1 := rfl
  have hm : mainBound .main initState = 2 := rfl
  rw [hl, hm] at h
  exact h

/-! ## Orchestrator: flag stamping on deliveries -/

theorem stamping_captureLoad (ps : RequestParams) (st : ReqState) (d : JSResponseData)
    (s : Nat) : capturedFlagsNone (captureLoad ps st d s).result := by
  intro r hr
  simp only [captureLoad, Option.some.injEq] at hr
  rw [← hr]
  exact ⟨rfl, rfl⟩

theorem stamping_captureError (st : ReqState) (c : Nat) (t1 : String) :
    capturedFlagsNone (captureError st c t1).result := by
  intro r hr
  simp only [captureError, Option.some.injEq] at hr
  rw [← hr]
  exact ⟨rfl, rfl⟩

theorem stamping_returnLoad (st : ReqState) :
    ∀ dl ∈ returnLoadDeliv st, stampedDeliv dl := by
  intro dl hdl
  unfold returnLoadDeliv at hdl
  cases hres : st.result with
  | none => rw [hres] at hdl; simp at hdl
  | some r =>
    rw [hres] at hdl
    simp only [List.mem_singleton] at hdl
    rw [hdl]
    exact ⟨_, rfl, rfl, rfl⟩

theorem stamping_returnError (st : ReqState) (hst : capturedFlagsNone st.result) :
    ∀ dl ∈ returnErrorDeliv st, stampedDeliv dl := by
  intro dl hdl
  unfold returnErrorDeliv at hdl
  simp only [List.mem_singleton] at hdl
  rw [hdl]
  exact hst

theorem stamping_mOnLoad (ps : RequestParams) (st : ReqState) (d : JSResponseData) (s : Nat) :
    (∀ s2 st2, mOnLoad ps st d s = .call s2 st2 → capturedFlagsNone st2.result) ∧
    (∀ ds, mOnLoad ps st d s = .done ds → ∀ dl ∈ ds, stampedDeliv dl) := by
  unfold mOnLoad
  split
  · refine ⟨fun s2 st2 h => ?_, fun ds h => absurd h (by simp)⟩
    rw [Next.call.injEq] at h
    rw [← h.2]
    exact stamping_captureLoad ps st d s
  · refine ⟨fun s2 st2 h => absurd h (by simp), fun ds h => ?_⟩
    rw [Next.done.injEq] at h
    rw [← h]
    exact stamping_returnLoad _

theorem stamping_mOnError (ps : RequestParams) (st : ReqState) (c : Nat) (t : String)
    (hst : capturedFlagsNone st.result) :
    (∀ s2 st2, mOnError ps st c t = .call s2 st2 → capturedFlagsNone st2.result) ∧
    (∀ ds, mOnError ps st c t = .done ds → ∀ dl ∈ ds, stampedDeliv dl) := by
  unfold mOnError
  split
  · refine ⟨fun s2 st2 h => ?_, fun ds h => absurd h (by simp)⟩
    rw [Next.call.injEq] at h
    rw [← h.2]
    exact hst
  · split
    · refine ⟨fun s2 st2 h => ?_, fun ds h => absurd h (by simp)⟩
      rw [Next.call.injEq] at h
      rw [← h.2]
      exact stamping_captureError st c _
    · refine ⟨fun s2 st2 h => absurd h (by simp), fun ds h => ?_⟩
      rw [Next.done.injEq] at h
      rw [← h]
      exact stamping_returnError _ (stamping_captureError st c _)

theorem stamping_mLoginOnDemandOnLoad (ps : RequestParams) (st : ReqState)
    (d : JSResponseData) (hst : capturedFlagsNone st.result) :
    (∀ s2 st2, mLoginOnDemandOnLoad ps st d = .call s2 st2 → capturedFlagsNone st2.result) ∧
    (∀ ds, mLoginOnDemandOnLoad ps st d = .done ds → ∀ dl ∈ ds, stampedDeliv dl) := by
  unfold mLoginOnDemandOnLoad
  split
  · exact stamping_mOnError ps st 403 d.message hst
  · refine ⟨fun s2 st2 h => ?_, fun ds h => absurd h (by simp)⟩
    rw [Next.call.injEq] at h
    rw [← h.2]
    split <;> exact hst

theorem stamping_mLogOffDone (st : ReqState) (hst : capturedFlagsNone st.result) :
    (∀ s2 st2, mLogOffDone st = .call s2 st2 → capturedFlagsNone st2.result) ∧
    (∀ ds, mLogOffDone st = .done ds → ∀ dl ∈ ds, stampedDeliv dl) := by
  unfold mLogOffDone
  split
  · refine ⟨fun s2 st2 h => absurd h (by simp), fun ds h => ?_⟩
    rw [Next.done.injEq] at h
    rw [← h]
    exact stamping_returnLoad st
  · refine ⟨fun s2 st2 h => absurd h (by simp), fun ds h => ?_⟩
    rw [Next.done.injEq] at h
    rw [← h]
    exact stamping_returnError st hst

theorem afterEvent_stamping (ps : RequestParams) (site : CallSite) (st : ReqState)
    (ev : TransportResult) (hst : capturedFlagsNone st.result) :
    (∀ s2 st2, afterEvent ps site st ev = .call s2 st2 → capturedFlagsNone st2.result) ∧
    (∀ ds, afterEvent ps site st ev = .done ds → ∀ dl ∈ ds, stampedDeliv dl) := by
  cases site with
  | main =>
    cases ev with
    | load d s => exact stamping_mOnLoad ps st d s
    | err c t => exact stamping_mOnError ps st c t hst
  | login od =>
    cases ev with
    | load d s =>
      cases od with
      | true =>
        simp only [afterEvent, if_pos]
        exact stamping_mLoginOnDemandOnLoad ps st d hst
      | false =>
        simp only [afterEvent, Bool.false_eq_true, if_false]
        exact stamping_mOnLoad ps st d s
    | err c t => exact stamping_mOnError ps st c t hst
  | logoff od =>
    cases ev with
    | load d s =>
      cases od with
      | true =>
        simp only [afterEvent, if_pos]
        exact stamping_mLogOffDone st hst
      | false =>
        simp only [afterEvent, Bool.false_eq_true, if_false]
        exact stamping_mOnLoad ps st d s
    | err c t =>
      cases od with
      | true =>
        simp only [afterEvent, if_pos]
        exact stamping_mLogOffDone st hst
      | false =>
        simp only [afterEvent, Bool.false_eq_true, if_false]
        exact stamping_mOnError ps st c t hst

/-- C5 (amended): starting from any configuration whose captured `m_result`
carries no flags (in particular a fresh request), every delivery to the
caller's `onLoad` continuation carries an outcome with both `loggedOn` and
`loggedOff` stamped, while every delivery to `onError` carries the outcome
exactly as captured — with neither flag stamped (`m_returnError` performs no
stamping). -/
theorem run_flag_stamping (ps : RequestParams) (oracle : List TransportResult)
    (site : CallSite) (st : ReqState) (hst : capturedFlagsNone st.result) :
    ∀ dl ∈ (run ps site st oracle).2, stampedDeliv dl := by
  induction oracle generalizing site st with
  | nil => intro dl hdl; simp [run] at hdl
  | cons ev rest ih =>
    intro dl hdl
    cases hA : afterEvent ps site st ev with
    | done ds =>
      rw [run_cons_done hA] at hdl
      exact (afterEvent_stamping ps site st ev hst).2 ds hA dl hdl
    | call s2 st2 =>
      rw [run_cons_call hA] at hdl
      exact ih s2 st2 ((afterEvent_stamping ps site st ev hst).1 s2 st2 hA) dl hdl

/-- C5 counterexample: the claim says the failure path also stamps the flags.
It does not: a plain transport failure is delivered to `onError` with both
`loggedOn` and `loggedOff` absent (`undefined`). -/
theorem failure_delivery_not_stamped :
    run ps0 .main initState [.err 500 "boom"] =
      ([.main], [⟨.err, some ⟨none, 500, some "boom", none, none⟩⟩]) ∧
    (OutcomeObj.mk none 500 (some "boom") none none).loggedOn = none ∧
    (OutcomeObj.mk none 500 (some "boom") none none).loggedOff = none :=
  ⟨rfl, rfl, rfl⟩

/-- Witness for C5 (amended) on a fresh request and a one-event oracle. -/
theorem run_flag_stamping_witness :
    capturedFlagsNone initState.result ∧
    ∀ dl ∈ (run ps0 .main initState [.load ⟨none, "", 1⟩ 200]).2, stampedDeliv dl :=
  ⟨fun _ hr => (nomatch hr),
   run_flag_stamping ps0 [.load ⟨none, "", 1⟩ 200] .main initState (fun _ hr => (nomatch hr))⟩

/-! ## C4: auto-log-off preserves the captured outcome -/

/-- C4 (amended): with auto-log-off armed, once the original operation's
outcome is captured the orchestrator issues exactly one logout call, and the
outcome delivered is the captured one regardless of the logout's own result
(`f`/`g` arbitrary): a success is delivered to `onLoad` annotated
`loggedOff = true`, while a failure is delivered to `onError` exactly as
captured, without the `loggedOff` annotation. -/
theorem autoLogOff_outcome (ps : RequestParams) (st : ReqState) (d : JSResponseData)
    (s c : Nat) (t : String) (f g : TransportResult) (r1 r2 : List TransportResult)
    (hA : st.autoLogOff = true) (hL : st.loginAttempted = true)
    (hS : st.resultIsSuccess = false) :
    run ps .main st (.load d s :: f :: r1) =
      ([.main, .logoff],
        [⟨.load, some ⟨some (applyRP ps d), s, none, some st.loggedOn, some true⟩⟩]) ∧
    run ps .main st (.err c t :: g :: r2) =
      ([.main, .logoff], [⟨.err, some ⟨none, c, some t, none, none⟩⟩]) := by
  constructor
  · have h1 : afterEvent ps .main st (.load d s) =
        .call (.logoff true) (logOffT (captureLoad ps st d s)) := by
      simp [afterEvent, mOnLoad, hA]
    rw [run_cons_call h1]
    have h2 : afterEvent ps (.logoff true) (logOffT (captureLoad ps st d s)) f =
        .done (returnLoadDeliv (logOffT (captureLoad ps st d s))) := by
      cases f <;> simp [afterEvent, mLogOffDone, captureLoad, logOffT]
    rw [run_cons_done h2]
    simp [returnLoadDeliv, logOffT, captureLoad, CallSite.kind]
  · have h1 : afterEvent ps .main st (.err c t) =
        .call (.logoff true) (logOffT (captureError st c t)) := by
      simp [afterEvent, mOnError, hA, hL]
    rw [run_cons_call h1]
    have h2 : afterEvent ps (.logoff true) (logOffT (captureError st c t)) g =
        .done (returnErrorDeliv (logOffT (captureError st c t))) := by
      cases g <;> simp [afterEvent, mLogOffDone, captureError, logOffT, hS]
    rw [run_cons_done h2]
    simp [returnErrorDeliv, logOffT, captureError, CallSite.kind]

/-- C4 counterexample: the claim says the final outcome is "reported with
loggedOff equal to true" on the failure path as well.  In a full flow with
auto-log-off armed whose replay fails, the delivered failure outcome carries
no `loggedOff` annotation at all. -/
theorem autoLogOff_failure_not_annotated :
    run ps1 .main initState
      [.err 403 "denied", .load ⟨some true, "", 0⟩ 200, .err 403 "still denied",
       .err 500 "logoff failed"] =
      ([.main, .login, .main, .logoff],
        [⟨.err, some ⟨none, 403, some "still denied", none, none⟩⟩]) ∧
    (OutcomeObj.mk none 403 (some "still denied") none none).loggedOff ≠ some true :=
  ⟨rfl, by decide⟩

/-- Witness for C4 (amended) at a concrete post-login state and oracle. -/
theorem autoLogOff_outcome_witness :
    (stAuto.autoLogOff = true ∧ stAuto.loginAttempted = true ∧
      stAuto.resultIsSuccess = false) ∧
    (run ps1 .main stAuto [.load ⟨none, "", 7⟩ 200, .err 500 "logoff failed"] =
      ([.main, .logoff],
        [⟨.load, some ⟨some (applyRP ps1 ⟨none, "", 7⟩), 200, none,
          some stAuto.loggedOn, some true⟩⟩]) ∧
     run ps1 .main stAuto [.err 403 "denied", .load ⟨none, "", 8⟩ 200] =
      ([.main, .logoff], [⟨.err, some ⟨none, 403, some "denied", none, none⟩⟩])) :=
  ⟨⟨rfl, rfl, rfl⟩,
   autoLogOff_outcome ps1 stAuto ⟨none, "", 7⟩ 200 403 "denied"
     (.err 500 "logoff failed") (.load ⟨none, "", 8⟩ 200) [] [] rfl rfl rfl⟩

/-! ## C6: the "Not Logged In" rewrite -/

/-- C6 (amended): the fixed `"Not Logged In"` text is applied only when the
403 is non-retriable because `loginOnDemand` is NOT configured and no login
has yet been attempted; when a login has already been attempted, the
transport's own error text is surfaced unchanged. -/
theorem notLoggedIn_rewrite (ps : RequestParams) (st : ReqState) (t : String)
    (rest : List TransportResult) (hA : st.autoLogOff = false) :
    (st.loginAttempted = false → ps.connectionInfo.loginOnDemand = false →
      run ps .main st (.err 403 t :: rest) =
        ([.main], [⟨.err, some ⟨none, 403, some "Not Logged In", none, none⟩⟩])) ∧
    (st.loginAttempted = true →
      run ps .main st (.err 403 t :: rest) =
        ([.main], [⟨.err, some ⟨none, 403, some t, none, none⟩⟩])) := by
  constructor
  · intro h1 h2
    have hE : afterEvent ps .main st (.err 403 t) =
        .done (returnErrorDeliv (captureError st 403 "Not Logged In")) := by
      simp [afterEvent, mOnError, h1, h2, hA]
    rw [run_cons_done hE]
    simp [returnErrorDeliv, captureError, CallSite.kind]
  · intro h1
    have hE : afterEvent ps .main st (.err 403 t) =
        .done (returnErrorDeliv (captureError st 403 t)) := by
      simp [afterEvent, mOnError, h1, hA]
    rw [run_cons_done hE]
    simp [returnErrorDeliv, captureError, CallSite.kind]

/-- C6 counterexample: after an attempted login the 403's own text is
surfaced, not `"Not Logged In"` — the claim's "already attempted" case is
false on the code. -/
theorem notLoggedIn_after_attempt_counterexample :
    run ps0 .main initState
      [.err 403 "x", .load ⟨some true, "", 0⟩ 200, .err 403 "Forbidden2"] =
      ([.main, .login, .main],
        [⟨.err, some ⟨none, 403, some "Forbidden2", none, none⟩⟩]) ∧
    "Forbidden2" ≠ "Not Logged In" :=
  ⟨rfl, by decide⟩

/-- Witness for C6 (amended): `loginOnDemand` off, fresh request. -/
theorem notLoggedIn_rewrite_witness :
    (initState.autoLogOff = false ∧ initState.loginAttempted = false ∧
      ps2.connectionInfo.loginOnDemand = false) ∧
    run ps2 .main initState [.err 403 "x"] =
      ([.main], [⟨.err, some ⟨none, 403, some "Not Logged In", none, none⟩⟩]) :=
  ⟨⟨rfl, rfl, rfl⟩, (notLoggedIn_rewrite ps2 initState "x" [] rfl).1 rfl rfl⟩
